import Mathlib

/-!
Formalisation of the isotropic volume-scan Test Drivers of this repository:
the legacy ASE variant (`test_driver.py`, `TestDriver._calculate`) and the
kim-tools variant (`test_driver/test_driver.py`, `TestDriver._calculate`).

Machine floats are modelled as exact rationals.  The only irrational value in
the scan is the linear scale factor `volume_scale ** (1/3)`; the working cell
is therefore represented exactly as a rational base matrix together with the
accumulated rational volume factor whose real cube root multiplies it
(`CellRep`), and a real-matrix interpretation (`CellRep.matrix`) is used to
state the geometric facts.  The physics performed by the external calculator
(minimisation, energy, stress, symmetry verification) is abstracted into a
per-grid-point outcome function, as these live in external libraries (ASE,
kim-tools) outside this repository.
-/

namespace VolumeScan

/-- Models `range(-num_steps, num_steps+1)` from the scan loop
(`test_driver.py` line 69, `test_driver/test_driver.py` line 88). -/
def gridIndices (ns : ℕ) : List ℤ :=
  (List.range (2 * ns + 1)).map (fun k : ℕ => (k : ℤ) - (ns : ℤ))

/-- Models `step_size = max_volume_scale/num_steps`
(`test_driver.py` line 64, `test_driver/test_driver.py` line 83). -/
def stepSize (mvs : ℚ) (ns : ℕ) : ℚ := mvs / (ns : ℚ)

/-- Models `volume_scale = 1 + step_size*i`
(`test_driver.py` line 70, `test_driver/test_driver.py` line 89). -/
def volumeScale (mvs : ℚ) (ns : ℕ) (i : ℤ) : ℚ :=
  1 + stepSize mvs ns * (i : ℚ)

/-- The working cell of an ASE `Atoms` object during the scan.  The scan only
ever sets the cell to `original_cell * volume_scale ** (1/3)`, so the cell is
represented exactly by a rational base matrix `base` together with the
accumulated rational factor `vscale` whose real cube root multiplies it:
the actual cell matrix is `vscale^(1/3) • base` (see `CellRep.matrix`). -/
structure CellRep where
  base : Matrix (Fin 3) (Fin 3) ℚ
  vscale : ℚ
deriving DecidableEq

/-- Models `atoms.set_cell(original_cell * linear_scale, scale_atoms=True)` with
`linear_scale = volume_scale ** (1/3)`
(`test_driver.py` lines 71-72, `test_driver/test_driver.py` lines 90-93). -/
def scaleCell (orig : CellRep) (vs : ℚ) : CellRep :=
  ⟨orig.base, orig.vscale * vs⟩

/-- Models `atoms.get_volume()` (`test_driver.py` line 73,
`test_driver/test_driver.py` line 94): the absolute determinant of the cell
matrix.  On the scan's domain `0 ≤ vscale` this equals `vscale * |det base|`
(see `abs_det_cellMatrix`). -/
def getVolume (c : CellRep) : ℚ := c.vscale * |c.base.det|

/-- Python's `volume_scale ** (1/3)` (`test_driver.py` line 71,
`test_driver/test_driver.py` line 90): a real number for a nonnegative base;
for a negative base Python returns a `complex`, modelled here as `none`. -/
noncomputable def pyCubeRootR (x : ℚ) : Option ℝ :=
  if 0 ≤ x then some ((x : ℝ) ^ ((1 : ℝ) / 3)) else none

/-- The real cell matrix represented by a `CellRep`. -/
noncomputable def CellRep.matrix (c : CellRep) : Matrix (Fin 3) (Fin 3) ℝ :=
  ((c.vscale : ℝ) ^ ((1 : ℝ) / 3)) • c.base.map (fun q => (q : ℝ))

/-- One field of a KIM property instance: a key name, its list of values and
an optional uncertainty list (`source-std-uncert-value`). -/
structure PropertyKey where
  key : String
  values : List ℚ
  uncert : Option (List ℚ)
deriving DecidableEq

/-- A KIM property instance: its property name, optional disclaimer and the
custom keys added to it.  The common crystal-genome keys written by the
external base class are outside this repository and are not modelled. -/
structure PropertyInstance where
  name : String
  disclaimer : Option String
  keys : List PropertyKey
deriving DecidableEq

/-- Models `_add_property_instance_and_common_crystal_genome_keys(...)`: append a
fresh property instance (with optional disclaimer) to the driver's
accumulated list of property instances. -/
def addPropertyInstance (l : List PropertyInstance) (n : String)
    (d : Option String) : List PropertyInstance :=
  l ++ [⟨n, d, []⟩]

/-- Models `_add_key_to_current_property_instance(...)`: add a key to the most
recently created property instance.  (`_add_file_to_current_property_instance`
is modelled the same way, with an empty value list.) -/
def addKeyToCurrent : List PropertyInstance → PropertyKey → List PropertyInstance
  | [], _ => []
  | [p], k => [⟨p.name, p.disclaimer, p.keys ++ [k]⟩]
  | p :: q :: rest, k => p :: addKeyToCurrent (q :: rest) k

/-- Result of one grid point's `try` block in the kim-tools variant
(`test_driver/test_driver.py` lines 97-146): `ok e` means minimisation, the
symmetry check, `get_potential_energy` (returning `e`), `get_stress` and
`_update_nominal_parameter_values` all succeeded; `symmetryChanged` means
`_verify_unchanged_symmetry` returned `False` (line 138); `raised` means an
exception was raised and caught (line 141). -/
inductive PointOutcome where
  | ok (energy : ℚ)
  | symmetryChanged
  | raised
deriving DecidableEq

/-- Whether the point was recorded (the `else` branch of line 153). -/
def PointOutcome.isOk : PointOutcome → Bool
  | .ok _ => true
  | _ => false

/-- The potential energy of a successful outcome (junk value otherwise). -/
def PointOutcome.energyD : PointOutcome → ℚ
  | .ok e => e
  | _ => 0

/-- Disclaimer string of the kim-tools variant
(`test_driver/test_driver.py` lines 149-152). -/
def disclaimerNew : String :=
  "At least one of the requested deformations of the unit cell underwent a phase transformation or otherwise failed to evaluate."

/-- Disclaimer string of the legacy variant (`test_driver.py` line 87). -/
def disclaimerOld : String :=
  "At least one of the requested deformations of the unit cell failed to compute a potential energy."

/-- The `crystal-structure-npt` instance written at each successful grid point
(`test_driver/test_driver.py` lines 186-191); it has only the common keys. -/
def nptInst : PropertyInstance := ⟨"crystal-structure-npt", none, []⟩

/-- State of the kim-tools driver relevant to `_calculate`: the nominal
crystal structure (cell, atom count, and the stoichiometry list decoded from
the prototype label by `get_stoich_reduced_list_from_prototype`) and the
accumulated property instances. -/
structure DriverState where
  nominalCell : CellRep
  numAtoms : ℕ
  stoich : List ℕ
  propertyInstances : List PropertyInstance
deriving DecidableEq

/-- Loop-carried state of the kim-tools scan: the evolving nominal cell, the
property instances appended during the loop, the four parallel output
sequences, and the disclaimer. -/
structure ScanAccNew where
  nominalCell : CellRep
  props : List PropertyInstance
  vpa : List ℚ
  vpf : List ℚ
  bpepa : List ℚ
  bpepf : List ℚ
  disclaimer : Option String
deriving DecidableEq

/-- One iteration of the kim-tools scan loop
(`test_driver/test_driver.py` lines 88-193).  Returns `none` when
`volume_scale` is negative: Python's `volume_scale ** (1/3)` is then complex
and `set_cell` (line 93) raises outside the `try` block, crashing the scan. -/
def scanStepNew (origCell : CellRep) (numAtoms naf : ℕ) (mvs : ℚ) (ns : ℕ)
    (outcome : ℤ → PointOutcome) (acc : ScanAccNew) (i : ℤ) :
    Option ScanAccNew :=
  let vs := volumeScale mvs ns i
  if 0 ≤ vs then
    let cell := scaleCell origCell vs
    let cvpa := getVolume cell / (numAtoms : ℚ)
    match outcome i with
    | .ok e =>
      some ⟨cell, acc.props ++ [nptInst],
        acc.vpa ++ [cvpa], acc.vpf ++ [cvpa * (naf : ℚ)],
        acc.bpepa ++ [e / (numAtoms : ℚ)],
        acc.bpepf ++ [e / (numAtoms : ℚ) * (naf : ℚ)],
        acc.disclaimer⟩
    | _ =>
      some ⟨acc.nominalCell, acc.props, acc.vpa, acc.vpf, acc.bpepa,
        acc.bpepf, some disclaimerNew⟩
  else
    none

/-- The kim-tools scan loop, `for i in range(-num_steps, num_steps + 1)`. -/
def scanLoopNew (origCell : CellRep) (numAtoms naf : ℕ) (mvs : ℚ) (ns : ℕ)
    (outcome : ℤ → PointOutcome) :
    ScanAccNew → List ℤ → Option ScanAccNew
  | acc, [] => some acc
  | acc, i :: rest =>
    match scanStepNew origCell numAtoms naf mvs ns outcome acc i with
    | none => none
    | some acc2 => scanLoopNew origCell numAtoms naf mvs ns outcome acc2 rest

/-- Models `TestDriver._calculate` of `test_driver/test_driver.py` (lines 21-246),
with the external per-point physics abstracted into `outcome`.  After the
loop, the nominal structure is restored to the original atoms (line 200), the
`energy-vs-volume-isotropic-crystal` instance is created with the disclaimer
(lines 201-206), its four keys are added (lines 210-236, with the all-zero
uncertainty list of lines 222-224), and the cat picture file key is added
(lines 243-246). -/
def calculateNew (st : DriverState) (mvs : ℚ) (ns : ℕ)
    (outcome : ℤ → PointOutcome) : Option DriverState :=
  let origCell := st.nominalCell
  let naf := st.stoich.sum
  match scanLoopNew origCell st.numAtoms naf mvs ns outcome
      ⟨origCell, [], [], [], [], [], none⟩ (gridIndices ns) with
  | none => none
  | some acc =>
    let u := List.replicate acc.bpepa.length (0 : ℚ)
    let p1 := addPropertyInstance (st.propertyInstances ++ acc.props)
      "energy-vs-volume-isotropic-crystal" acc.disclaimer
    let p2 := addKeyToCurrent p1 ⟨"volume-per-atom", acc.vpa, none⟩
    let p3 := addKeyToCurrent p2 ⟨"volume-per-formula", acc.vpf, none⟩
    let p4 := addKeyToCurrent p3
      ⟨"binding-potential-energy-per-atom", acc.bpepa, some u⟩
    let p5 := addKeyToCurrent p4
      ⟨"binding-potential-energy-per-formula", acc.bpepf, some u⟩
    let p6 := addKeyToCurrent p5 ⟨"cat-picture", [], none⟩
    some ⟨origCell, st.numAtoms, st.stoich, p6⟩

/-- State of the legacy driver relevant to `_calculate`: the cell of the
persistent `self.atoms` object, the atom count, the stoichiometry list and
the accumulated property instances. -/
structure OldDriverState where
  atomsCell : CellRep
  numAtoms : ℕ
  stoich : List ℕ
  propertyInstances : List PropertyInstance
deriving DecidableEq

/-- Loop-carried state of the legacy scan: the cell of the mutated
`self.atoms`, the four parallel output sequences, and the disclaimer. -/
structure ScanAccOld where
  atomsCell : CellRep
  vpa : List ℚ
  vpf : List ℚ
  bpepa : List ℚ
  bpepf : List ℚ
  disclaimer : Option String
deriving DecidableEq

/-- One iteration of the legacy scan loop (`test_driver.py` lines 69-94).
`self.atoms.set_cell(...)` (line 72) happens before the `try`, so the cell is
updated whether or not the energy evaluation succeeds; `oEval i = none`
models the bare `except` of line 84.  Returns `none` when `volume_scale` is
negative (complex `linear_scale`, uncaught error at `set_cell`). -/
def scanStepOld (origCell : CellRep) (numAtoms naf : ℕ) (mvs : ℚ) (ns : ℕ)
    (oEval : ℤ → Option ℚ) (acc : ScanAccOld) (i : ℤ) : Option ScanAccOld :=
  let vs := volumeScale mvs ns i
  if 0 ≤ vs then
    let cell := scaleCell origCell vs
    let cvpa := getVolume cell / (numAtoms : ℚ)
    match oEval i with
    | some e =>
      some ⟨cell, acc.vpa ++ [cvpa], acc.vpf ++ [cvpa * (naf : ℚ)],
        acc.bpepa ++ [e / (numAtoms : ℚ)],
        acc.bpepf ++ [e / (numAtoms : ℚ) * (naf : ℚ)],
        acc.disclaimer⟩
    | none =>
      some ⟨cell, acc.vpa, acc.vpf, acc.bpepa, acc.bpepf, some disclaimerOld⟩
  else
    none

/-- The legacy scan loop. -/
def scanLoopOld (origCell : CellRep) (numAtoms naf : ℕ) (mvs : ℚ) (ns : ℕ)
    (oEval : ℤ → Option ℚ) :
    ScanAccOld → List ℤ → Option ScanAccOld
  | acc, [] => some acc
  | acc, i :: rest =>
    match scanStepOld origCell numAtoms naf mvs ns oEval acc i with
    | none => none
    | some acc2 => scanLoopOld origCell numAtoms naf mvs ns oEval acc2 rest

/-- Models `TestDriver._calculate` of the legacy `test_driver.py` (lines 38-123),
with `self.atoms.get_potential_energy()` abstracted into `oEval`.  The cell
of `self.atoms` is never restored after the loop; the single
`energy-vs-volume-isotropic-crystal` instance is created (lines 103-104) and
its four keys are added (lines 108-123). -/
def calculateOld (st : OldDriverState) (mvs : ℚ) (ns : ℕ)
    (oEval : ℤ → Option ℚ) : Option OldDriverState :=
  let origCell := st.atomsCell
  let naf := st.stoich.sum
  match scanLoopOld origCell st.numAtoms naf mvs ns oEval
      ⟨origCell, [], [], [], [], none⟩ (gridIndices ns) with
  | none => none
  | some acc =>
    let u := List.replicate acc.bpepa.length (0 : ℚ)
    let p1 := addPropertyInstance st.propertyInstances
      "energy-vs-volume-isotropic-crystal" acc.disclaimer
    let p2 := addKeyToCurrent p1 ⟨"volume-per-atom", acc.vpa, none⟩
    let p3 := addKeyToCurrent p2 ⟨"volume-per-formula", acc.vpf, none⟩
    let p4 := addKeyToCurrent p3
      ⟨"binding-potential-energy-per-atom", acc.bpepa, some u⟩
    let p5 := addKeyToCurrent p4
      ⟨"binding-potential-energy-per-formula", acc.bpepf, some u⟩
    some ⟨acc.atomsCell, st.numAtoms, st.stoich, p5⟩

/-- The grid points whose outcome is recorded (kim-tools variant). -/
def okList (outcome : ℤ → PointOutcome) (ns : ℕ) : List ℤ :=
  (gridIndices ns).filter (fun i => (outcome i).isOk)

/-- The grid points whose energy evaluation succeeds (legacy variant). -/
def okListOld (oEval : ℤ → Option ℚ) (ns : ℕ) : List ℤ :=
  (gridIndices ns).filter (fun i => (oEval i).isSome)

/-- Expected `volume_per_atom` entries over a list of grid points. -/
def expectedVpa (orig : CellRep) (numAtoms : ℕ) (mvs : ℚ) (ns : ℕ)
    (l : List ℤ) : List ℚ :=
  l.map (fun i => getVolume (scaleCell orig (volumeScale mvs ns i)) / (numAtoms : ℚ))

/-- Expected `volume_per_formula` entries over a list of grid points. -/
def expectedVpf (orig : CellRep) (numAtoms naf : ℕ) (mvs : ℚ) (ns : ℕ)
    (l : List ℤ) : List ℚ :=
  l.map (fun i =>
    getVolume (scaleCell orig (volumeScale mvs ns i)) / (numAtoms : ℚ) * (naf : ℚ))

/-- Expected `binding_potential_energy_per_atom` entries (kim-tools). -/
def expectedBpa (outcome : ℤ → PointOutcome) (numAtoms : ℕ) (l : List ℤ) : List ℚ :=
  l.map (fun i => (outcome i).energyD / (numAtoms : ℚ))

/-- Expected `binding_potential_energy_per_formula` entries (kim-tools). -/
def expectedBpf (outcome : ℤ → PointOutcome) (numAtoms naf : ℕ) (l : List ℤ) : List ℚ :=
  l.map (fun i => (outcome i).energyD / (numAtoms : ℚ) * (naf : ℚ))

/-- Expected `binding_potential_energy_per_atom` entries (legacy). -/
def expectedBpaOld (oEval : ℤ → Option ℚ) (numAtoms : ℕ) (l : List ℤ) : List ℚ :=
  l.map (fun i => (oEval i).getD 0 / (numAtoms : ℚ))

/-- Expected `binding_potential_energy_per_formula` entries (legacy). -/
def expectedBpfOld (oEval : ℤ → Option ℚ) (numAtoms naf : ℕ) (l : List ℤ) : List ℚ :=
  l.map (fun i => (oEval i).getD 0 / (numAtoms : ℚ) * (naf : ℚ))

/-! ### Basic facts about the grid -/

theorem length_gridIndices (ns : ℕ) : (gridIndices ns).length = 2 * ns + 1 := by
  rw [gridIndices, List.length_map, List.length_range]

theorem get_gridIndices (ns k : ℕ) (hk : k < (gridIndices ns).length) :
    (gridIndices ns).get ⟨k, hk⟩ = (k : ℤ) - (ns : ℤ) := by
  simp [gridIndices]

theorem mem_gridIndices {ns : ℕ} {i : ℤ} :
    i ∈ gridIndices ns ↔ -(ns : ℤ) ≤ i ∧ i ≤ (ns : ℤ) := by
  rw [gridIndices, List.mem_map]
  constructor
  · rintro ⟨k, hk, rfl⟩
    rw [List.mem_range] at hk
    omega
  · rintro ⟨h1, h2⟩
    refine ⟨(i + ns).toNat, ?_, ?_⟩
    · rw [List.mem_range]; omega
    · omega

theorem gridIndices_pairwise (ns : ℕ) : (gridIndices ns).Pairwise (· < ·) := by
  rw [gridIndices, List.pairwise_map]
  refine (List.pairwise_lt_range _).imp ?_
  intro a b hab
  omega

theorem gridIndices_concat (ns : ℕ) :
    gridIndices ns =
      (List.range (2 * ns)).map (fun k : ℕ => (k : ℤ) - (ns : ℤ)) ++ [(ns : ℤ)] := by
  rw [gridIndices, List.range_succ, List.map_append]
  simp
  omega

theorem volumeScale_at_ns (mvs : ℚ) {ns : ℕ} (h : 1 ≤ ns) :
    volumeScale mvs ns (ns : ℤ) = 1 + mvs := by
  have hns : (ns : ℚ) ≠ 0 := (Nat.cast_pos.mpr h).ne'
  simp only [volumeScale, stepSize]
  push_cast
  field_simp

theorem volumeScale_pos {mvs : ℚ} {ns : ℕ} (h0 : 0 ≤ mvs) (h1 : mvs < 1)
    {i : ℤ} (hi : i ∈ gridIndices ns) : 0 < volumeScale mvs ns i := by
  rcases mem_gridIndices.mp hi with ⟨hlo, _⟩
  have hns : (0 : ℚ) ≤ mvs / ns := by positivity
  have hbound : mvs / ns * (-(ns : ℤ) : ℚ) ≤ mvs / ns * (i : ℚ) := by
    apply mul_le_mul_of_nonneg_left _ hns
    exact_mod_cast hlo
  have hcancel : mvs / (ns : ℚ) * (-(ns : ℤ) : ℚ) = -(mvs / ns * ns) := by
    push_cast
    ring
  rcases Nat.eq_zero_or_pos ns with hz | hp
  · subst hz
    have : i = 0 := by
      rcases mem_gridIndices.mp hi with ⟨a, b⟩
      omega
    simp [this, volumeScale, stepSize]
  · have hne : (ns : ℚ) ≠ 0 := by exact_mod_cast hp.ne'
    rw [hcancel, div_mul_cancel₀ _ hne] at hbound
    simp only [volumeScale, stepSize]
    linarith

theorem volumeScale_strictMono {mvs : ℚ} {ns : ℕ} (h0 : 0 < mvs) (h1 : 1 ≤ ns)
    {i j : ℤ} (hij : i < j) : volumeScale mvs ns i < volumeScale mvs ns j := by
  have hns : (0 : ℚ) < (ns : ℚ) := by exact_mod_cast h1
  have hs : 0 < mvs / ns := div_pos h0 hns
  have : (i : ℚ) < (j : ℚ) := by exact_mod_cast hij
  simp only [volumeScale, stepSize]
  nlinarith

/-! ### The real cell matrix and volumes -/

theorem abs_det_smul_cast (M : Matrix (Fin 3) (Fin 3) ℝ) (vs : ℚ) (ls : ℝ)
    (h : pyCubeRootR vs = some ls) : |(ls • M).det| = (vs : ℝ) * |M.det| := by
  rw [pyCubeRootR] at h
  split at h
  case isFalse => exact absurd h (by simp)
  case isTrue h0 =>
    have hls : ls = (vs : ℝ) ^ ((1 : ℝ) / 3) := by
      exact (Option.some_injective _ h).symm
    have hv0 : (0 : ℝ) ≤ (vs : ℝ) := by exact_mod_cast h0
    have hlsnn : 0 ≤ ls := by
      rw [hls]; exact Real.rpow_nonneg hv0 _
    have hcube : ls ^ (3 : ℕ) = (vs : ℝ) := by
      rw [hls, ← Real.rpow_natCast ((vs : ℝ) ^ ((1 : ℝ) / 3)) 3,
        ← Real.rpow_mul hv0]
      norm_num
    rw [Matrix.det_smul, abs_mul, abs_pow, abs_of_nonneg hlsnn]
    simp [hcube, Fintype.card_fin]

theorem abs_det_cellMatrix (c : CellRep) (h : 0 ≤ c.vscale) :
    |c.matrix.det| = (getVolume c : ℝ) := by
  have hroot : pyCubeRootR c.vscale =
      some ((c.vscale : ℝ) ^ ((1 : ℝ) / 3)) := by
    rw [pyCubeRootR, if_pos h]
  rw [CellRep.matrix, abs_det_smul_cast _ _ _ hroot]
  have hdet : (c.base.map (fun q => (q : ℝ))).det = ((c.base.det : ℚ) : ℝ) := by
    have h1 := RingHom.map_det (Rat.castHom ℝ) c.base
    rw [RingHom.mapMatrix_apply] at h1
    exact h1.symm
  rw [hdet, getVolume]
  push_cast
  ring

theorem getVolume_scaleCell (c : CellRep) (vs : ℚ) :
    getVolume (scaleCell c vs) = vs * getVolume c := by
  simp [getVolume, scaleCell]
  ring

/-! ### Characterisation of the kim-tools scan -/

theorem addKeyToCurrent_append (l : List PropertyInstance) (p : PropertyInstance)
    (k : PropertyKey) :
    addKeyToCurrent (l ++ [p]) k = l ++ [⟨p.name, p.disclaimer, p.keys ++ [k]⟩] := by
  induction l with
  | nil => rfl
  | cons a l ih =>
    cases l with
    | nil => rfl
    | cons b l2 =>
      show a :: addKeyToCurrent ((b :: l2) ++ [p]) k = _
      rw [ih]
      rfl

theorem scanLoopNew_spec (origCell : CellRep) (numAtoms naf : ℕ) (mvs : ℚ)
    (ns : ℕ) (outcome : ℤ → PointOutcome) :
    ∀ (l : List ℤ) (acc : ScanAccNew),
      (∀ i ∈ l, 0 ≤ volumeScale mvs ns i) →
      ∃ c, scanLoopNew origCell numAtoms naf mvs ns outcome acc l = some
        ⟨c,
         acc.props ++ (l.filter (fun i => (outcome i).isOk)).map (fun _ => nptInst),
         acc.vpa ++ expectedVpa origCell numAtoms mvs ns
           (l.filter (fun i => (outcome i).isOk)),
         acc.vpf ++ expectedVpf origCell numAtoms naf mvs ns
           (l.filter (fun i => (outcome i).isOk)),
         acc.bpepa ++ expectedBpa outcome numAtoms
           (l.filter (fun i => (outcome i).isOk)),
         acc.bpepf ++ expectedBpf outcome numAtoms naf
           (l.filter (fun i => (outcome i).isOk)),
         if l.all (fun i => (outcome i).isOk) then acc.disclaimer
           else some disclaimerNew⟩ := by
  intro l
  induction l with
  | nil =>
    intro acc h
    exact ⟨acc.nominalCell, by
      simp [scanLoopNew, expectedVpa, expectedVpf, expectedBpa, expectedBpf]⟩
  | cons i rest ih =>
    intro acc h
    have hpos : 0 ≤ volumeScale mvs ns i := h i (List.mem_cons_self i rest)
    have hrest : ∀ j ∈ rest, 0 ≤ volumeScale mvs ns j :=
      fun j hj => h j (List.mem_cons_of_mem i hj)
    cases houtcome : outcome i with
    | ok e =>
      obtain ⟨c, hc⟩ := ih ⟨scaleCell origCell (volumeScale mvs ns i),
        acc.props ++ [nptInst],
        acc.vpa ++ [getVolume (scaleCell origCell (volumeScale mvs ns i)) / (numAtoms : ℚ)],
        acc.vpf ++ [getVolume (scaleCell origCell (volumeScale mvs ns i)) / (numAtoms : ℚ) * (naf : ℚ)],
        acc.bpepa ++ [e / (numAtoms : ℚ)],
        acc.bpepf ++ [e / (numAtoms : ℚ) * (naf : ℚ)],
        acc.disclaimer⟩ hrest
      refine ⟨c, ?_⟩
      rw [show scanLoopNew origCell numAtoms naf mvs ns outcome acc (i :: rest) =
        scanLoopNew origCell numAtoms naf mvs ns outcome
          ⟨scaleCell origCell (volumeScale mvs ns i),
           acc.props ++ [nptInst],
           acc.vpa ++ [getVolume (scaleCell origCell (volumeScale mvs ns i)) / (numAtoms : ℚ)],
           acc.vpf ++ [getVolume (scaleCell origCell (volumeScale mvs ns i)) / (numAtoms : ℚ) * (naf : ℚ)],
           acc.bpepa ++ [e / (numAtoms : ℚ)],
           acc.bpepf ++ [e / (numAtoms : ℚ) * (naf : ℚ)],
           acc.disclaimer⟩ rest from by
        simp [scanLoopNew, scanStepNew, hpos, houtcome]]
      rw [hc]
      simp [List.filter_cons, List.all_cons, houtcome, PointOutcome.isOk,
        PointOutcome.energyD, expectedVpa, expectedVpf, expectedBpa, expectedBpf,
        List.append_assoc]
    | symmetryChanged =>
      obtain ⟨c, hc⟩ := ih ⟨acc.nominalCell, acc.props, acc.vpa, acc.vpf,
        acc.bpepa, acc.bpepf, some disclaimerNew⟩ hrest
      refine ⟨c, ?_⟩
      rw [show scanLoopNew origCell numAtoms naf mvs ns outcome acc (i :: rest) =
        scanLoopNew origCell numAtoms naf mvs ns outcome
          ⟨acc.nominalCell, acc.props, acc.vpa, acc.vpf, acc.bpepa, acc.bpepf,
           some disclaimerNew⟩ rest from by
        simp [scanLoopNew, scanStepNew, hpos, houtcome]]
      rw [hc]
      simp [List.filter_cons, List.all_cons, houtcome, PointOutcome.isOk]
    | raised =>
      obtain ⟨c, hc⟩ := ih ⟨acc.nominalCell, acc.props, acc.vpa, acc.vpf,
        acc.bpepa, acc.bpepf, some disclaimerNew⟩ hrest
      refine ⟨c, ?_⟩
      rw [show scanLoopNew origCell numAtoms naf mvs ns outcome acc (i :: rest) =
        scanLoopNew origCell numAtoms naf mvs ns outcome
          ⟨acc.nominalCell, acc.props, acc.vpa, acc.vpf, acc.bpepa, acc.bpepf,
           some disclaimerNew⟩ rest from by
        simp [scanLoopNew, scanStepNew, hpos, houtcome]]
      rw [hc]
      simp [List.filter_cons, List.all_cons, houtcome, PointOutcome.isOk]

/-- The `energy-vs-volume-isotropic-crystal` instance a kim-tools scan is
expected to produce. -/
def expectedEvvNew (st : DriverState) (mvs : ℚ) (ns : ℕ)
    (outcome : ℤ → PointOutcome) : PropertyInstance :=
  ⟨"energy-vs-volume-isotropic-crystal",
   if (gridIndices ns).all (fun i => (outcome i).isOk) then none
     else some disclaimerNew,
   [⟨"volume-per-atom",
     expectedVpa st.nominalCell st.numAtoms mvs ns (okList outcome ns), none⟩,
    ⟨"volume-per-formula",
     expectedVpf st.nominalCell st.numAtoms st.stoich.sum mvs ns (okList outcome ns),
     none⟩,
    ⟨"binding-potential-energy-per-atom",
     expectedBpa outcome st.numAtoms (okList outcome ns),
     some (List.replicate (okList outcome ns).length (0 : ℚ))⟩,
    ⟨"binding-potential-energy-per-formula",
     expectedBpf outcome st.numAtoms st.stoich.sum (okList outcome ns),
     some (List.replicate (okList outcome ns).length (0 : ℚ))⟩,
    ⟨"cat-picture", [], none⟩]⟩

/-- The driver state a kim-tools scan is expected to leave behind. -/
def expectedStateNew (st : DriverState) (mvs : ℚ) (ns : ℕ)
    (outcome : ℤ → PointOutcome) : DriverState :=
  ⟨st.nominalCell, st.numAtoms, st.stoich,
   st.propertyInstances ++ (okList outcome ns).map (fun _ => nptInst) ++
     [expectedEvvNew st mvs ns outcome]⟩

theorem calculateNew_spec (st : DriverState) (mvs : ℚ) (ns : ℕ)
    (outcome : ℤ → PointOutcome)
    (hvs : ∀ i ∈ gridIndices ns, 0 ≤ volumeScale mvs ns i) :
    calculateNew st mvs ns outcome = some (expectedStateNew st mvs ns outcome) := by
  obtain ⟨c, hc⟩ := scanLoopNew_spec st.nominalCell st.numAtoms st.stoich.sum
    mvs ns outcome (gridIndices ns) ⟨st.nominalCell, [], [], [], [], [], none⟩ hvs
  rw [calculateNew, hc]
  simp only [List.nil_append, addPropertyInstance, ← List.append_assoc]
  simp only [addKeyToCurrent_append]
  simp [expectedStateNew, expectedEvvNew, okList, expectedBpa, List.length_map,
    List.append_assoc]

/-! ### Characterisation of the legacy scan -/

/-- The cell left in `self.atoms` after the legacy loop has run over `l`. -/
def lastCellOld (origCell : CellRep) (mvs : ℚ) (ns : ℕ) (start : CellRep)
    (l : List ℤ) : CellRep :=
  l.foldl (fun _ i => scaleCell origCell (volumeScale mvs ns i)) start

theorem scanLoopOld_spec (origCell : CellRep) (numAtoms naf : ℕ) (mvs : ℚ)
    (ns : ℕ) (oEval : ℤ → Option ℚ) :
    ∀ (l : List ℤ) (acc : ScanAccOld),
      (∀ i ∈ l, 0 ≤ volumeScale mvs ns i) →
      scanLoopOld origCell numAtoms naf mvs ns oEval acc l = some
        ⟨lastCellOld origCell mvs ns acc.atomsCell l,
         acc.vpa ++ expectedVpa origCell numAtoms mvs ns
           (l.filter (fun i => (oEval i).isSome)),
         acc.vpf ++ expectedVpf origCell numAtoms naf mvs ns
           (l.filter (fun i => (oEval i).isSome)),
         acc.bpepa ++ expectedBpaOld oEval numAtoms
           (l.filter (fun i => (oEval i).isSome)),
         acc.bpepf ++ expectedBpfOld oEval numAtoms naf
           (l.filter (fun i => (oEval i).isSome)),
         if l.all (fun i => (oEval i).isSome) then acc.disclaimer
           else some disclaimerOld⟩ := by
  intro l
  induction l with
  | nil =>
    intro acc h
    simp [scanLoopOld, lastCellOld, expectedVpa, expectedVpf, expectedBpaOld,
      expectedBpfOld]
  | cons i rest ih =>
    intro acc h
    have hpos : 0 ≤ volumeScale mvs ns i := h i (List.mem_cons_self i rest)
    have hrest : ∀ j ∈ rest, 0 ≤ volumeScale mvs ns j :=
      fun j hj => h j (List.mem_cons_of_mem i hj)
    cases hev : oEval i with
    | some e =>
      rw [show scanLoopOld origCell numAtoms naf mvs ns oEval acc (i :: rest) =
        scanLoopOld origCell numAtoms naf mvs ns oEval
          ⟨scaleCell origCell (volumeScale mvs ns i),
           acc.vpa ++ [getVolume (scaleCell origCell (volumeScale mvs ns i)) / (numAtoms : ℚ)],
           acc.vpf ++ [getVolume (scaleCell origCell (volumeScale mvs ns i)) / (numAtoms : ℚ) * (naf : ℚ)],
           acc.bpepa ++ [e / (numAtoms : ℚ)],
           acc.bpepf ++ [e / (numAtoms : ℚ) * (naf : ℚ)],
           acc.disclaimer⟩ rest from by
        simp [scanLoopOld, scanStepOld, hpos, hev]]
      rw [ih _ hrest]
      simp [List.filter_cons, List.all_cons, hev, lastCellOld, expectedVpa,
        expectedVpf, expectedBpaOld, expectedBpfOld, List.append_assoc]
    | none =>
      rw [show scanLoopOld origCell numAtoms naf mvs ns oEval acc (i :: rest) =
        scanLoopOld origCell numAtoms naf mvs ns oEval
          ⟨scaleCell origCell (volumeScale mvs ns i),
           acc.vpa, acc.vpf, acc.bpepa, acc.bpepf, some disclaimerOld⟩ rest from by
        simp [scanLoopOld, scanStepOld, hpos, hev]]
      rw [ih _ hrest]
      simp [List.filter_cons, List.all_cons, hev, lastCellOld]

/-- The single property instance a legacy scan is expected to produce. -/
def expectedEvvOld (st : OldDriverState) (mvs : ℚ) (ns : ℕ)
    (oEval : ℤ → Option ℚ) : PropertyInstance :=
  ⟨"energy-vs-volume-isotropic-crystal",
   if (gridIndices ns).all (fun i => (oEval i).isSome) then none
     else some disclaimerOld,
   [⟨"volume-per-atom",
     expectedVpa st.atomsCell st.numAtoms mvs ns (okListOld oEval ns), none⟩,
    ⟨"volume-per-formula",
     expectedVpf st.atomsCell st.numAtoms st.stoich.sum mvs ns (okListOld oEval ns),
     none⟩,
    ⟨"binding-potential-energy-per-atom",
     expectedBpaOld oEval st.numAtoms (okListOld oEval ns),
     some (List.replicate (okListOld oEval ns).length (0 : ℚ))⟩,
    ⟨"binding-potential-energy-per-formula",
     expectedBpfOld oEval st.numAtoms st.stoich.sum (okListOld oEval ns),
     some (List.replicate (okListOld oEval ns).length (0 : ℚ))⟩]⟩

/-- The driver state a legacy scan is expected to leave behind: note the cell
of `self.atoms` remains at the last deformation. -/
def expectedStateOld (st : OldDriverState) (mvs : ℚ) (ns : ℕ)
    (oEval : ℤ → Option ℚ) : OldDriverState :=
  ⟨lastCellOld st.atomsCell mvs ns st.atomsCell (gridIndices ns),
   st.numAtoms, st.stoich,
   st.propertyInstances ++ [expectedEvvOld st mvs ns oEval]⟩

theorem calculateOld_spec (st : OldDriverState) (mvs : ℚ) (ns : ℕ)
    (oEval : ℤ → Option ℚ)
    (hvs : ∀ i ∈ gridIndices ns, 0 ≤ volumeScale mvs ns i) :
    calculateOld st mvs ns oEval = some (expectedStateOld st mvs ns oEval) := by
  have hc := scanLoopOld_spec st.atomsCell st.numAtoms st.stoich.sum
    mvs ns oEval (gridIndices ns) ⟨st.atomsCell, [], [], [], [], none⟩ hvs
  rw [calculateOld, hc]
  simp only [List.nil_append, addPropertyInstance, ← List.append_assoc]
  simp only [addKeyToCurrent_append]
  simp [expectedStateOld, expectedEvvOld, okListOld, expectedBpaOld,
    List.length_map, List.append_assoc]

/-- After the legacy loop over the full grid, the cell of `self.atoms` is the
original cell scaled by `(1 + max_volume_scale) ** (1/3)` (the last grid
point, `i = num_steps`). -/
theorem lastCellOld_grid (origCell start : CellRep) (mvs : ℚ) {ns : ℕ}
    (h : 1 ≤ ns) :
    lastCellOld origCell mvs ns start (gridIndices ns) =
      scaleCell origCell (1 + mvs) := by
  rw [lastCellOld, gridIndices_concat, List.foldl_append]
  simp [volumeScale_at_ns mvs h]

/-! ### The LAMMPS-backed evaluator (modelled from the spec) -/

/-- Modelled from the spec: the atom-representation styles the LAMMPS-backed
evaluator may use.  The LAMMPS subprocess code itself is not present under
the repository's source files; only the spec describes it. -/
inductive AtomStyle where
  | atomic
  | charge
deriving DecidableEq

/-- Modelled from the spec: the ordered sequence of at least two
atom-representation styles the driver tries, a neutral atomic style first and
a charge style second. -/
def lammpsStyles : List AtomStyle := [AtomStyle.atomic, AtomStyle.charge]

/-- Modelled from the spec: try each style in sequence, accepting the first
that returns an energy; fail only when every style fails. -/
def tryStyles (ev : AtomStyle → Option ℚ) : List AtomStyle → Option ℚ
  | [] => none
  | s :: rest =>
    match ev s with
    | some e => some e
    | none => tryStyles ev rest

/-- Modelled from the spec: the full LAMMPS-backed point evaluation. -/
def lammpsEvaluate (ev : AtomStyle → Option ℚ) : Option ℚ :=
  tryStyles ev lammpsStyles

/-! ### Concrete fixtures used in counterexamples and witnesses -/

/-- A one-atom structure with the identity cell (volume 1). -/
def cellOne : CellRep := ⟨1, 1⟩

/-- A concrete legacy driver state before any scan. -/
def oldStart : OldDriverState := ⟨cellOne, 1, [1], []⟩

/-- A concrete kim-tools driver state before any scan. -/
def newStart : DriverState := ⟨cellOne, 1, [1], []⟩

/-- An evaluator that always succeeds with energy `0` (legacy variant). -/
def evalZero : ℤ → Option ℚ := fun _ => some 0

/-- An outcome function that always succeeds with energy `0` (kim-tools). -/
def okZero : ℤ → PointOutcome := fun _ => PointOutcome.ok 0

/-- An outcome function failing exactly at the interior grid point `i = 0`. -/
def failAtZero : ℤ → PointOutcome :=
  fun i => if i = 0 then PointOutcome.raised else PointOutcome.ok 0

/-- A legacy evaluator failing exactly at the grid point `i = 0`. -/
def evalFailAtZero : ℤ → Option ℚ :=
  fun i => if i = 0 then none else some 0

/-- An outcome function whose symmetry check fails exactly at `i = 0`. -/
def symFailAtZero : ℤ → PointOutcome :=
  fun i => if i = 0 then PointOutcome.symmetryChanged else PointOutcome.ok 0

/-- The values of the first key (`volume-per-atom`) of the most recent
property instance. -/
def lastVpaValues (l : List PropertyInstance) : List ℚ :=
  match l.getLast? with
  | some pi =>
    match pi.keys with
    | k :: _ => k.values
    | [] => []
  | none => []

/-- A LAMMPS-style model that only accepts the charge atom style. -/
def chargeOnlyEv : AtomStyle → Option ℚ :=
  fun s =>
    match s with
    | AtomStyle.atomic => none
    | AtomStyle.charge => some 5

/-! ### Helper lemmas shared by the claim theorems -/

/-- The real cell matrix of the identity cell scaled by `v > 1` differs from
the identity cell's matrix (entry `(0,0)` is `v^(1/3) > 1`). -/
theorem cellMatrix_entry_ne {v : ℚ} (hv : 1 < v) :
    CellRep.matrix ⟨(1 : Matrix (Fin 3) (Fin 3) ℚ), v⟩ ≠ CellRep.matrix cellOne := by
  intro hEq
  have h00 := congrFun (congrFun hEq 0) 0
  have hL : CellRep.matrix ⟨(1 : Matrix (Fin 3) (Fin 3) ℚ), v⟩ 0 0 =
      ((v : ℝ)) ^ ((1 : ℝ) / 3) := by
    simp [CellRep.matrix, Matrix.smul_apply, Matrix.map_apply, Matrix.one_apply_eq]
  have hR : CellRep.matrix cellOne 0 0 = 1 := by
    simp [CellRep.matrix, cellOne, Matrix.smul_apply, Matrix.map_apply,
      Matrix.one_apply_eq, Real.one_rpow]
  rw [hL, hR] at h00
  have hv0 : (0 : ℝ) < (v : ℝ) := by
    have : (0 : ℚ) < v := lt_trans one_pos hv
    exact_mod_cast this
  have hgt : 1 < ((v : ℝ)) ^ ((1 : ℝ) / 3) := by
    rw [Real.one_lt_rpow_iff_of_pos hv0]
    exact Or.inl ⟨by exact_mod_cast hv, by norm_num⟩
  linarith

theorem volumeScale_nonneg_grid {mvs : ℚ} (h0 : 0 ≤ mvs) (h1 : mvs < 1)
    {ns : ℕ} : ∀ i ∈ gridIndices ns, 0 ≤ volumeScale mvs ns i :=
  fun _ hi => (volumeScale_pos h0 h1 hi).le

theorem lastInstance_new (st : DriverState) (mvs : ℚ) (ns : ℕ)
    (outcome : ℤ → PointOutcome) :
    (expectedStateNew st mvs ns outcome).propertyInstances.getLast? =
      some (expectedEvvNew st mvs ns outcome) :=
  List.getLast?_concat _

theorem lastInstance_old (ost : OldDriverState) (mvs : ℚ) (ns : ℕ)
    (oEval : ℤ → Option ℚ) :
    (expectedStateOld ost mvs ns oEval).propertyInstances.getLast? =
      some (expectedEvvOld ost mvs ns oEval) :=
  List.getLast?_concat _

theorem grid_all_eq_false {p : ℤ → Bool} {ns : ℕ}
    (h : ∃ i ∈ gridIndices ns, p i = false) :
    (gridIndices ns).all p = false := by
  rcases h with ⟨i, hi, hf⟩
  apply Bool.eq_false_iff.mpr
  intro hall
  have := List.all_eq_true.mp hall i hi
  rw [hf] at this
  exact Bool.false_ne_true this

theorem zero_mem_gridIndices (ns : ℕ) : (0 : ℤ) ∈ gridIndices ns :=
  mem_gridIndices.mpr ⟨by omega, by omega⟩

/-! ### C1: shape of the volume-scale grid -/

/-- C1 (counterexample): the claim quantifies over every finite
`max_volume_scale`, but at `max_volume_scale = 0` (with `num_steps = 1`) the
scale factors are `[1, 1, 1]`, which is not strictly ascending in volume. -/
theorem C1_counterexample :
    ((gridIndices 1).map (volumeScale 0 1) = [1, 1, 1]) ∧
    ¬ List.Chain' (· < ·) ((gridIndices 1).map (volumeScale 0 1)) := by
  have h : (gridIndices 1).map (volumeScale 0 1) = [1, 1, 1] := by
    rw [show gridIndices 1 = [-1, 0, 1] from by decide]
    simp [volumeScale, stepSize]
  refine ⟨h, ?_⟩
  rw [h]
  simp [List.chain'_cons]

/-- C1 (amended): for every `num_steps ≥ 1` and every `max_volume_scale > 0`,
the scan grid has exactly `2*num_steps+1` points, the `k`-th index is
`k - num_steps` (so the scale factors are `1 + (max_volume_scale/num_steps)*i`
for `i` from `-num_steps` to `num_steps` inclusive), the factors are symmetric
around `1.0`, and both the scale factors and the resulting cell volumes are
strictly ascending. -/
theorem C1_grid_spec (mvs : ℚ) (ns : ℕ) (h1 : 1 ≤ ns) (h2 : 0 < mvs) :
    (gridIndices ns).length = 2 * ns + 1 ∧
    (∀ k (hk : k < (gridIndices ns).length),
      (gridIndices ns).get ⟨k, hk⟩ = (k : ℤ) - (ns : ℤ)) ∧
    (∀ i ∈ gridIndices ns, -i ∈ gridIndices ns ∧
      volumeScale mvs ns i + volumeScale mvs ns (-i) = 2) ∧
    List.Chain' (· < ·) ((gridIndices ns).map (volumeScale mvs ns)) ∧
    (∀ c : CellRep, 0 < getVolume c →
      List.Chain' (· < ·) ((gridIndices ns).map
        (fun i => getVolume (scaleCell c (volumeScale mvs ns i))))) := by
  refine ⟨length_gridIndices ns, get_gridIndices ns, ?_, ?_, ?_⟩
  · intro i hi
    rcases mem_gridIndices.mp hi with ⟨hlo, hhi⟩
    refine ⟨mem_gridIndices.mpr ⟨by omega, by omega⟩, ?_⟩
    simp only [volumeScale, stepSize]
    push_cast
    ring
  · rw [List.chain'_map]
    exact ((gridIndices_pairwise ns).imp
      (fun hab => volumeScale_strictMono h2 h1 hab)).chain'
  · intro c hc
    rw [List.chain'_map]
    refine ((gridIndices_pairwise ns).imp ?_).chain'
    intro a b hab
    rw [getVolume_scaleCell, getVolume_scaleCell]
    exact mul_lt_mul_of_pos_right (volumeScale_strictMono h2 h1 hab) hc

/-- C1 (witness): the amended grid shape theorem at
`max_volume_scale = 1/10`, `num_steps = 1`. -/
theorem C1_grid_spec_witness :
    (gridIndices 1).length = 2 * 1 + 1 ∧
    (∀ k (hk : k < (gridIndices 1).length),
      (gridIndices 1).get ⟨k, hk⟩ = (k : ℤ) - ((1 : ℕ) : ℤ)) ∧
    (∀ i ∈ gridIndices 1, -i ∈ gridIndices 1 ∧
      volumeScale (1/10) 1 i + volumeScale (1/10) 1 (-i) = 2) ∧
    List.Chain' (· < ·) ((gridIndices 1).map (volumeScale (1/10) 1)) ∧
    (∀ c : CellRep, 0 < getVolume c →
      List.Chain' (· < ·) ((gridIndices 1).map
        (fun i => getVolume (scaleCell c (volumeScale (1/10) 1 i))))) :=
  C1_grid_spec (1/10) 1 (le_refl 1) (by norm_num)

/-! ### C10: domain safety of the grid arithmetic -/

/-- C10: for `num_steps ≥ 1` the step-size division is by a nonzero number;
for `0 ≤ max_volume_scale < 1` every grid point's volume scale is strictly
positive, its Python cube root is a real number, and the whole kim-tools scan
completes without crashing; for `max_volume_scale > 1` the most-compressed
grid point `i = -num_steps` has `volume_scale = 1 - max_volume_scale < 0`,
whose Python cube root is not a real number. -/
theorem C10_domain_safety (st : DriverState) (outcome : ℤ → PointOutcome)
    (mvs : ℚ) (ns : ℕ) (h1 : 1 ≤ ns) :
    ((ns : ℚ) ≠ 0 ∧ stepSize mvs ns * (ns : ℚ) = mvs) ∧
    (0 ≤ mvs → mvs < 1 →
      (∀ i ∈ gridIndices ns, 0 < volumeScale mvs ns i ∧
        (pyCubeRootR (volumeScale mvs ns i)).isSome = true) ∧
      (calculateNew st mvs ns outcome).isSome = true) ∧
    (1 < mvs →
      volumeScale mvs ns (-(ns : ℤ)) = 1 - mvs ∧
      volumeScale mvs ns (-(ns : ℤ)) < 0 ∧
      pyCubeRootR (volumeScale mvs ns (-(ns : ℤ))) = none) := by
  have hns : (ns : ℚ) ≠ 0 := (Nat.cast_pos.mpr h1).ne'
  have hneg : volumeScale mvs ns (-(ns : ℤ)) = 1 - mvs := by
    simp only [volumeScale, stepSize]
    push_cast
    field_simp
    ring
  refine ⟨⟨hns, by rw [stepSize]; exact div_mul_cancel₀ mvs hns⟩, ?_, ?_⟩
  · intro h0 hlt
    have hall : ∀ i ∈ gridIndices ns, 0 < volumeScale mvs ns i :=
      fun i hi => volumeScale_pos h0 hlt hi
    refine ⟨fun i hi => ⟨hall i hi, ?_⟩, ?_⟩
    · rw [pyCubeRootR, if_pos (hall i hi).le]
      rfl
    · rw [calculateNew_spec st mvs ns outcome (fun i hi => (hall i hi).le)]
      rfl
  · intro hgt
    refine ⟨hneg, by rw [hneg]; linarith, ?_⟩
    rw [pyCubeRootR, if_neg (by rw [hneg]; intro hcon; linarith)]

/-- C2: in both scan variants, under any pattern of per-point evaluation
failures, the scan returns (it never raises), the four parallel sequences of
the returned record each hold exactly one entry per successful grid point in
grid order, the disclaimer is the fixed non-empty string whenever at least
one point failed, and when every point fails the sequences are empty with the
disclaimer still set. -/
theorem C2_partial_failure (st : DriverState) (ost : OldDriverState)
    (mvs : ℚ) (ns : ℕ) (outcome : ℤ → PointOutcome) (oEval : ℤ → Option ℚ)
    (hvs : ∀ i ∈ gridIndices ns, 0 ≤ volumeScale mvs ns i) :
    (∃ st2, calculateNew st mvs ns outcome = some st2 ∧
      ∃ pi, st2.propertyInstances.getLast? = some pi ∧
        pi.keys =
          [⟨"volume-per-atom",
            expectedVpa st.nominalCell st.numAtoms mvs ns (okList outcome ns),
            none⟩,
           ⟨"volume-per-formula",
            expectedVpf st.nominalCell st.numAtoms st.stoich.sum mvs ns
              (okList outcome ns), none⟩,
           ⟨"binding-potential-energy-per-atom",
            expectedBpa outcome st.numAtoms (okList outcome ns),
            some (List.replicate (okList outcome ns).length 0)⟩,
           ⟨"binding-potential-energy-per-formula",
            expectedBpf outcome st.numAtoms st.stoich.sum (okList outcome ns),
            some (List.replicate (okList outcome ns).length 0)⟩,
           ⟨"cat-picture", [], none⟩] ∧
        (expectedVpa st.nominalCell st.numAtoms mvs ns (okList outcome ns)).length =
          (okList outcome ns).length ∧
        ((∃ i ∈ gridIndices ns, (outcome i).isOk = false) →
          pi.disclaimer = some disclaimerNew ∧ disclaimerNew ≠ "") ∧
        ((∀ i ∈ gridIndices ns, (outcome i).isOk = false) →
          okList outcome ns = [] ∧ pi.disclaimer = some disclaimerNew)) ∧
    (∃ ost2, calculateOld ost mvs ns oEval = some ost2 ∧
      ∃ pi, ost2.propertyInstances.getLast? = some pi ∧
        pi.keys =
          [⟨"volume-per-atom",
            expectedVpa ost.atomsCell ost.numAtoms mvs ns (okListOld oEval ns),
            none⟩,
           ⟨"volume-per-formula",
            expectedVpf ost.atomsCell ost.numAtoms ost.stoich.sum mvs ns
              (okListOld oEval ns), none⟩,
           ⟨"binding-potential-energy-per-atom",
            expectedBpaOld oEval ost.numAtoms (okListOld oEval ns),
            some (List.replicate (okListOld oEval ns).length 0)⟩,
           ⟨"binding-potential-energy-per-formula",
            expectedBpfOld oEval ost.numAtoms ost.stoich.sum (okListOld oEval ns),
            some (List.replicate (okListOld oEval ns).length 0)⟩] ∧
        ((∃ i ∈ gridIndices ns, (oEval i).isSome = false) →
          pi.disclaimer = some disclaimerOld ∧ disclaimerOld ≠ "") ∧
        ((∀ i ∈ gridIndices ns, (oEval i).isSome = false) →
          okListOld oEval ns = [] ∧ pi.disclaimer = some disclaimerOld)) := by
  constructor
  · refine ⟨expectedStateNew st mvs ns outcome,
      calculateNew_spec st mvs ns outcome hvs,
      expectedEvvNew st mvs ns outcome, lastInstance_new st mvs ns outcome,
      rfl, by simp [expectedVpa], ?_, ?_⟩
    · intro hex
      refine ⟨?_, by decide⟩
      show (if (gridIndices ns).all (fun i => (outcome i).isOk) then none
        else some disclaimerNew) = some disclaimerNew
      rw [grid_all_eq_false hex]
      rfl
    · intro hallfail
      constructor
      · rw [okList]
        apply List.filter_eq_nil_iff.mpr
        intro i hi
        rw [hallfail i hi]
        exact Bool.false_ne_true
      · show (if (gridIndices ns).all (fun i => (outcome i).isOk) then none
          else some disclaimerNew) = some disclaimerNew
        rw [grid_all_eq_false ⟨0, zero_mem_gridIndices ns,
          hallfail 0 (zero_mem_gridIndices ns)⟩]
        rfl
  · refine ⟨expectedStateOld ost mvs ns oEval,
      calculateOld_spec ost mvs ns oEval hvs,
      expectedEvvOld ost mvs ns oEval, lastInstance_old ost mvs ns oEval,
      rfl, ?_, ?_⟩
    · intro hex
      refine ⟨?_, by decide⟩
      show (if (gridIndices ns).all (fun i => (oEval i).isSome) then none
        else some disclaimerOld) = some disclaimerOld
      rw [grid_all_eq_false hex]
      rfl
    · intro hallfail
      constructor
      · rw [okListOld]
        apply List.filter_eq_nil_iff.mpr
        intro i hi
        rw [hallfail i hi]
        exact Bool.false_ne_true
      · show (if (gridIndices ns).all (fun i => (oEval i).isSome) then none
          else some disclaimerOld) = some disclaimerOld
        rw [grid_all_eq_false ⟨0, zero_mem_gridIndices ns,
          hallfail 0 (zero_mem_gridIndices ns)⟩]
        rfl

/-- C2 (witness): the partial-failure theorem at `max_volume_scale = 1/10`,
`num_steps = 2`, with the evaluation failing exactly at the interior grid
point `i = 0`, on the concrete one-atom structures. -/
theorem C2_partial_failure_witness :
    (∃ st2, calculateNew newStart (1/10) 2 failAtZero = some st2 ∧
      ∃ pi, st2.propertyInstances.getLast? = some pi ∧
        pi.keys =
          [⟨"volume-per-atom",
            expectedVpa newStart.nominalCell newStart.numAtoms (1/10) 2
              (okList failAtZero 2), none⟩,
           ⟨"volume-per-formula",
            expectedVpf newStart.nominalCell newStart.numAtoms newStart.stoich.sum
              (1/10) 2 (okList failAtZero 2), none⟩,
           ⟨"binding-potential-energy-per-atom",
            expectedBpa failAtZero newStart.numAtoms (okList failAtZero 2),
            some (List.replicate (okList failAtZero 2).length 0)⟩,
           ⟨"binding-potential-energy-per-formula",
            expectedBpf failAtZero newStart.numAtoms newStart.stoich.sum
              (okList failAtZero 2),
            some (List.replicate (okList failAtZero 2).length 0)⟩,
           ⟨"cat-picture", [], none⟩] ∧
        (expectedVpa newStart.nominalCell newStart.numAtoms (1/10) 2
            (okList failAtZero 2)).length = (okList failAtZero 2).length ∧
        ((∃ i ∈ gridIndices 2, (failAtZero i).isOk = false) →
          pi.disclaimer = some disclaimerNew ∧ disclaimerNew ≠ "") ∧
        ((∀ i ∈ gridIndices 2, (failAtZero i).isOk = false) →
          okList failAtZero 2 = [] ∧ pi.disclaimer = some disclaimerNew)) ∧
    (∃ ost2, calculateOld oldStart (1/10) 2 evalFailAtZero = some ost2 ∧
      ∃ pi, ost2.propertyInstances.getLast? = some pi ∧
        pi.keys =
          [⟨"volume-per-atom",
            expectedVpa oldStart.atomsCell oldStart.numAtoms (1/10) 2
              (okListOld evalFailAtZero 2), none⟩,
           ⟨"volume-per-formula",
            expectedVpf oldStart.atomsCell oldStart.numAtoms oldStart.stoich.sum
              (1/10) 2 (okListOld evalFailAtZero 2), none⟩,
           ⟨"binding-potential-energy-per-atom",
            expectedBpaOld evalFailAtZero oldStart.numAtoms
              (okListOld evalFailAtZero 2),
            some (List.replicate (okListOld evalFailAtZero 2).length 0)⟩,
           ⟨"binding-potential-energy-per-formula",
            expectedBpfOld evalFailAtZero oldStart.numAtoms oldStart.stoich.sum
              (okListOld evalFailAtZero 2),
            some (List.replicate (okListOld evalFailAtZero 2).length 0)⟩] ∧
        ((∃ i ∈ gridIndices 2, (evalFailAtZero i).isSome = false) →
          pi.disclaimer = some disclaimerOld ∧ disclaimerOld ≠ "") ∧
        ((∀ i ∈ gridIndices 2, (evalFailAtZero i).isSome = false) →
          okListOld evalFailAtZero 2 = [] ∧
            pi.disclaimer = some disclaimerOld)) :=
  C2_partial_failure newStart oldStart (1/10) 2 failAtZero evalFailAtZero
    (volumeScale_nonneg_grid (by norm_num) (by norm_num))

/-- C3: at `max_volume_scale = 1/10`, `num_steps = 1`, with all evaluations
succeeding, the scale factors are `[0.9, 1, 1.1]` and the recorded
`volume-per-atom` sequence is `[0.9*V0/N, V0/N, 1.1*V0/N]` in that order; in
general the cube-root linear cell scaling multiplies the cell volume by
exactly `volume_scale`. -/
theorem C3_concrete_scan (st : DriverState) (outcome : ℤ → PointOutcome)
    (hN : 0 < st.numAtoms)
    (hok : ∀ i ∈ gridIndices 1, (outcome i).isOk = true) :
    ((gridIndices 1).map (volumeScale (1/10) 1) = [9/10, 1, 11/10]) ∧
    (∃ st2, calculateNew st (1/10) 1 outcome = some st2 ∧
      ∃ pi, st2.propertyInstances.getLast? = some pi ∧
        ∃ k rest, pi.keys = k :: rest ∧ k.key = "volume-per-atom" ∧
          k.values = [9/10 * getVolume st.nominalCell / (st.numAtoms : ℚ),
            getVolume st.nominalCell / (st.numAtoms : ℚ),
            11/10 * getVolume st.nominalCell / (st.numAtoms : ℚ)]) ∧
    (∀ (M : Matrix (Fin 3) (Fin 3) ℝ) (vs : ℚ) (ls : ℝ),
      pyCubeRootR vs = some ls → |(ls • M).det| = (vs : ℝ) * |M.det|) := by
  have hg : gridIndices 1 = [-1, 0, 1] := by decide
  have hvs : ∀ i ∈ gridIndices 1, 0 ≤ volumeScale (1/10) 1 i :=
    volumeScale_nonneg_grid (by norm_num) (by norm_num)
  have hokList : okList outcome 1 = gridIndices 1 := by
    rw [okList]
    exact List.filter_eq_self.mpr hok
  have e1 : volumeScale (1/10) 1 (-1) = 9/10 := by norm_num [volumeScale, stepSize]
  have e2 : volumeScale (1/10) 1 0 = 1 := by norm_num [volumeScale, stepSize]
  have e3 : volumeScale (1/10) 1 1 = 11/10 := by norm_num [volumeScale, stepSize]
  refine ⟨by rw [hg]; simp only [List.map_cons, List.map_nil, e1, e2, e3],
    ?_, abs_det_smul_cast⟩
  refine ⟨expectedStateNew st (1/10) 1 outcome, calculateNew_spec _ _ _ _ hvs,
    expectedEvvNew st (1/10) 1 outcome, lastInstance_new _ _ _ _,
    _, _, rfl, rfl, ?_⟩
  show expectedVpa st.nominalCell st.numAtoms (1/10) 1 (okList outcome 1) = _
  rw [hokList, hg]
  simp only [expectedVpa, List.map_cons, List.map_nil, getVolume_scaleCell,
    e1, e2, e3, one_mul]

/-- C3 (witness): the concrete-scan theorem on the one-atom identity-cell
structure with the always-succeeding zero-energy outcome. -/
theorem C3_concrete_scan_witness :
    ((gridIndices 1).map (volumeScale (1/10) 1) = [9/10, 1, 11/10]) ∧
    (∃ st2, calculateNew newStart (1/10) 1 okZero = some st2 ∧
      ∃ pi, st2.propertyInstances.getLast? = some pi ∧
        ∃ k rest, pi.keys = k :: rest ∧ k.key = "volume-per-atom" ∧
          k.values = [9/10 * getVolume newStart.nominalCell / (newStart.numAtoms : ℚ),
            getVolume newStart.nominalCell / (newStart.numAtoms : ℚ),
            11/10 * getVolume newStart.nominalCell / (newStart.numAtoms : ℚ)]) ∧
    (∀ (M : Matrix (Fin 3) (Fin 3) ℝ) (vs : ℚ) (ls : ℝ),
      pyCubeRootR vs = some ls → |(ls • M).det| = (vs : ℝ) * |M.det|) :=
  C3_concrete_scan newStart okZero (by decide) (fun _ _ => rfl)

/-- C5: any grid point whose symmetry check fails (`symmetryChanged`) or
whose try-block raises (`raised`, which includes
`_update_nominal_parameter_values` raising on a detected symmetry change) is
dropped: it is excluded from the recorded points, every other successful
point is still recorded, the scan-level disclaimer is set, and the scan
returns normally. -/
theorem C5_symmetry_failure (st : DriverState) (mvs : ℚ) (ns : ℕ)
    (outcome : ℤ → PointOutcome) (j : ℤ)
    (hvs : ∀ i ∈ gridIndices ns, 0 ≤ volumeScale mvs ns i)
    (hj : j ∈ gridIndices ns)
    (hfail : outcome j = PointOutcome.symmetryChanged ∨
      outcome j = PointOutcome.raised) :
    ∃ st2, calculateNew st mvs ns outcome = some st2 ∧
      j ∉ okList outcome ns ∧
      (∀ i ∈ gridIndices ns, i ≠ j → (outcome i).isOk = true →
        i ∈ okList outcome ns) ∧
      ∃ pi, st2.propertyInstances.getLast? = some pi ∧
        pi.disclaimer = some disclaimerNew ∧
        pi.keys =
          [⟨"volume-per-atom",
            expectedVpa st.nominalCell st.numAtoms mvs ns (okList outcome ns),
            none⟩,
           ⟨"volume-per-formula",
            expectedVpf st.nominalCell st.numAtoms st.stoich.sum mvs ns
              (okList outcome ns), none⟩,
           ⟨"binding-potential-energy-per-atom",
            expectedBpa outcome st.numAtoms (okList outcome ns),
            some (List.replicate (okList outcome ns).length 0)⟩,
           ⟨"binding-potential-energy-per-formula",
            expectedBpf outcome st.numAtoms st.stoich.sum (okList outcome ns),
            some (List.replicate (okList outcome ns).length 0)⟩,
           ⟨"cat-picture", [], none⟩] := by
  have hjfail : (outcome j).isOk = false := by
    rcases hfail with h | h <;> rw [h] <;> rfl
  refine ⟨expectedStateNew st mvs ns outcome,
    calculateNew_spec st mvs ns outcome hvs, ?_, ?_,
    expectedEvvNew st mvs ns outcome, lastInstance_new st mvs ns outcome,
    ?_, rfl⟩
  · intro hmem
    rw [okList, List.mem_filter, hjfail] at hmem
    exact Bool.false_ne_true hmem.2
  · intro i hi _ hok
    rw [okList, List.mem_filter]
    exact ⟨hi, hok⟩
  · show (if (gridIndices ns).all (fun i => (outcome i).isOk) then none
      else some disclaimerNew) = some disclaimerNew
    rw [grid_all_eq_false ⟨j, hj, hjfail⟩]
    rfl

/-- C5 (witness): the symmetry-failure theorem at `num_steps = 1` with the
symmetry check failing exactly at the grid point `i = 0`. -/
theorem C5_symmetry_failure_witness :
    ∃ st2, calculateNew newStart (1/10) 1 symFailAtZero = some st2 ∧
      (0 : ℤ) ∉ okList symFailAtZero 1 ∧
      (∀ i ∈ gridIndices 1, i ≠ (0 : ℤ) → (symFailAtZero i).isOk = true →
        i ∈ okList symFailAtZero 1) ∧
      ∃ pi, st2.propertyInstances.getLast? = some pi ∧
        pi.disclaimer = some disclaimerNew ∧
        pi.keys =
          [⟨"volume-per-atom",
            expectedVpa newStart.nominalCell newStart.numAtoms (1/10) 1
              (okList symFailAtZero 1), none⟩,
           ⟨"volume-per-formula",
            expectedVpf newStart.nominalCell newStart.numAtoms newStart.stoich.sum
              (1/10) 1 (okList symFailAtZero 1), none⟩,
           ⟨"binding-potential-energy-per-atom",
            expectedBpa symFailAtZero newStart.numAtoms (okList symFailAtZero 1),
            some (List.replicate (okList symFailAtZero 1).length 0)⟩,
           ⟨"binding-potential-energy-per-formula",
            expectedBpf symFailAtZero newStart.numAtoms newStart.stoich.sum
              (okList symFailAtZero 1),
            some (List.replicate (okList symFailAtZero 1).length 0)⟩,
           ⟨"cat-picture", [], none⟩] :=
  C5_symmetry_failure newStart (1/10) 1 symFailAtZero 0
    (volumeScale_nonneg_grid (by norm_num) (by norm_num))
    (zero_mem_gridIndices 1) (Or.inl rfl)

/-- C6: on every scan — in both the kim-tools and the legacy variant — the
four sequences of the final record have equal lengths (one entry per
successful point, in strictly ascending grid order), with
`volume_per_formula[k] = volume_per_atom[k] * atoms_per_formula`,
`binding_potential_energy_per_formula[k] =
binding_potential_energy_per_atom[k] * atoms_per_formula`, and
`binding_potential_energy_per_atom[k] = potential_energy/N`. -/
theorem C6_formula_scaling (st : DriverState) (ost : OldDriverState)
    (mvs : ℚ) (ns : ℕ) (outcome : ℤ → PointOutcome) (oEval : ℤ → Option ℚ)
    (hvs : ∀ i ∈ gridIndices ns, 0 ≤ volumeScale mvs ns i) :
    (∃ st2, calculateNew st mvs ns outcome = some st2 ∧
      ∃ pi, st2.propertyInstances.getLast? = some pi ∧
        ∃ vpaL vpfL bpaL bpfL u,
          pi.keys = [⟨"volume-per-atom", vpaL, none⟩,
            ⟨"volume-per-formula", vpfL, none⟩,
            ⟨"binding-potential-energy-per-atom", bpaL, some u⟩,
            ⟨"binding-potential-energy-per-formula", bpfL, some u⟩,
            ⟨"cat-picture", [], none⟩] ∧
          vpaL.length = (okList outcome ns).length ∧
          vpfL.length = vpaL.length ∧
          bpaL.length = vpaL.length ∧
          bpfL.length = vpaL.length ∧
          bpaL = (okList outcome ns).map
            (fun i => (outcome i).energyD / (st.numAtoms : ℚ)) ∧
          (∀ k : ℕ, vpfL[k]? = (vpaL[k]?).map (· * (st.stoich.sum : ℚ))) ∧
          (∀ k : ℕ, bpfL[k]? = (bpaL[k]?).map (· * (st.stoich.sum : ℚ))) ∧
          List.Pairwise (· < ·) (okList outcome ns) ∧
          vpaL = (okList outcome ns).map
            (fun i => getVolume (scaleCell st.nominalCell (volumeScale mvs ns i)) /
              (st.numAtoms : ℚ))) ∧
    (∃ ost2, calculateOld ost mvs ns oEval = some ost2 ∧
      ∃ pi, ost2.propertyInstances.getLast? = some pi ∧
        ∃ vpaL vpfL bpaL bpfL u,
          pi.keys = [⟨"volume-per-atom", vpaL, none⟩,
            ⟨"volume-per-formula", vpfL, none⟩,
            ⟨"binding-potential-energy-per-atom", bpaL, some u⟩,
            ⟨"binding-potential-energy-per-formula", bpfL, some u⟩] ∧
          vpaL.length = (okListOld oEval ns).length ∧
          vpfL.length = vpaL.length ∧
          bpaL.length = vpaL.length ∧
          bpfL.length = vpaL.length ∧
          bpaL = (okListOld oEval ns).map
            (fun i => (oEval i).getD 0 / (ost.numAtoms : ℚ)) ∧
          (∀ k : ℕ, vpfL[k]? = (vpaL[k]?).map (· * (ost.stoich.sum : ℚ))) ∧
          (∀ k : ℕ, bpfL[k]? = (bpaL[k]?).map (· * (ost.stoich.sum : ℚ))) ∧
          List.Pairwise (· < ·) (okListOld oEval ns) ∧
          vpaL = (okListOld oEval ns).map
            (fun i => getVolume (scaleCell ost.atomsCell (volumeScale mvs ns i)) /
              (ost.numAtoms : ℚ))) := by
  constructor
  · refine ⟨expectedStateNew st mvs ns outcome,
      calculateNew_spec st mvs ns outcome hvs,
      expectedEvvNew st mvs ns outcome, lastInstance_new st mvs ns outcome,
      expectedVpa st.nominalCell st.numAtoms mvs ns (okList outcome ns),
      expectedVpf st.nominalCell st.numAtoms st.stoich.sum mvs ns (okList outcome ns),
      expectedBpa outcome st.numAtoms (okList outcome ns),
      expectedBpf outcome st.numAtoms st.stoich.sum (okList outcome ns),
      List.replicate (okList outcome ns).length 0,
      rfl, by simp [expectedVpa], by simp [expectedVpf, expectedVpa],
      by simp [expectedBpa, expectedVpa], by simp [expectedBpf, expectedVpa],
      rfl, ?_, ?_, ?_, rfl⟩
    · intro k
      rw [expectedVpf, expectedVpa, List.getElem?_map, List.getElem?_map,
        Option.map_map]
      rfl
    · intro k
      rw [expectedBpf, expectedBpa, List.getElem?_map, List.getElem?_map,
        Option.map_map]
      rfl
    · rw [okList]
      exact List.Pairwise.sublist (List.filter_sublist _) (gridIndices_pairwise ns)
  · refine ⟨expectedStateOld ost mvs ns oEval,
      calculateOld_spec ost mvs ns oEval hvs,
      expectedEvvOld ost mvs ns oEval, lastInstance_old ost mvs ns oEval,
      expectedVpa ost.atomsCell ost.numAtoms mvs ns (okListOld oEval ns),
      expectedVpf ost.atomsCell ost.numAtoms ost.stoich.sum mvs ns (okListOld oEval ns),
      expectedBpaOld oEval ost.numAtoms (okListOld oEval ns),
      expectedBpfOld oEval ost.numAtoms ost.stoich.sum (okListOld oEval ns),
      List.replicate (okListOld oEval ns).length 0,
      rfl, by simp [expectedVpa], by simp [expectedVpf, expectedVpa],
      by simp [expectedBpaOld, expectedVpa], by simp [expectedBpfOld, expectedVpa],
      rfl, ?_, ?_, ?_, rfl⟩
    · intro k
      rw [expectedVpf, expectedVpa, List.getElem?_map, List.getElem?_map,
        Option.map_map]
      rfl
    · intro k
      rw [expectedBpfOld, expectedBpaOld, List.getElem?_map, List.getElem?_map,
        Option.map_map]
      rfl
    · rw [okListOld]
      exact List.Pairwise.sublist (List.filter_sublist _) (gridIndices_pairwise ns)

/-- C6 (witness): the formula-scaling theorem at `max_volume_scale = 1/10`,
`num_steps = 1`, with the evaluation failing at the grid point `i = 0`, on
the concrete structures for both variants. -/
theorem C6_formula_scaling_witness :
    (∃ st2, calculateNew newStart (1/10) 1 failAtZero = some st2 ∧
      ∃ pi, st2.propertyInstances.getLast? = some pi ∧
        ∃ vpaL vpfL bpaL bpfL u,
          pi.keys = [⟨"volume-per-atom", vpaL, none⟩,
            ⟨"volume-per-formula", vpfL, none⟩,
            ⟨"binding-potential-energy-per-atom", bpaL, some u⟩,
            ⟨"binding-potential-energy-per-formula", bpfL, some u⟩,
            ⟨"cat-picture", [], none⟩] ∧
          vpaL.length = (okList failAtZero 1).length ∧
          vpfL.length = vpaL.length ∧
          bpaL.length = vpaL.length ∧
          bpfL.length = vpaL.length ∧
          bpaL = (okList failAtZero 1).map
            (fun i => (failAtZero i).energyD / (newStart.numAtoms : ℚ)) ∧
          (∀ k : ℕ, vpfL[k]? = (vpaL[k]?).map (· * (newStart.stoich.sum : ℚ))) ∧
          (∀ k : ℕ, bpfL[k]? = (bpaL[k]?).map (· * (newStart.stoich.sum : ℚ))) ∧
          List.Pairwise (· < ·) (okList failAtZero 1) ∧
          vpaL = (okList failAtZero 1).map
            (fun i => getVolume (scaleCell newStart.nominalCell
              (volumeScale (1/10) 1 i)) / (newStart.numAtoms : ℚ))) ∧
    (∃ ost2, calculateOld oldStart (1/10) 1 evalFailAtZero = some ost2 ∧
      ∃ pi, ost2.propertyInstances.getLast? = some pi ∧
        ∃ vpaL vpfL bpaL bpfL u,
          pi.keys = [⟨"volume-per-atom", vpaL, none⟩,
            ⟨"volume-per-formula", vpfL, none⟩,
            ⟨"binding-potential-energy-per-atom", bpaL, some u⟩,
            ⟨"binding-potential-energy-per-formula", bpfL, some u⟩] ∧
          vpaL.length = (okListOld evalFailAtZero 1).length ∧
          vpfL.length = vpaL.length ∧
          bpaL.length = vpaL.length ∧
          bpfL.length = vpaL.length ∧
          bpaL = (okListOld evalFailAtZero 1).map
            (fun i => (evalFailAtZero i).getD 0 / (oldStart.numAtoms : ℚ)) ∧
          (∀ k : ℕ, vpfL[k]? = (vpaL[k]?).map (· * (oldStart.stoich.sum : ℚ))) ∧
          (∀ k : ℕ, bpfL[k]? = (bpaL[k]?).map (· * (oldStart.stoich.sum : ℚ))) ∧
          List.Pairwise (· < ·) (okListOld evalFailAtZero 1) ∧
          vpaL = (okListOld evalFailAtZero 1).map
            (fun i => getVolume (scaleCell oldStart.atomsCell
              (volumeScale (1/10) 1 i)) / (oldStart.numAtoms : ℚ))) :=
  C6_formula_scaling newStart oldStart (1/10) 1 failAtZero evalFailAtZero
    (volumeScale_nonneg_grid (by norm_num) (by norm_num))

/-- C10 (witness): the domain-safety theorem at `num_steps = 1`,
`max_volume_scale = 2`, on the concrete one-atom structure. -/
theorem C10_domain_safety_witness :
    (((1 : ℕ) : ℚ) ≠ 0 ∧ stepSize 2 1 * ((1 : ℕ) : ℚ) = 2) ∧
    (0 ≤ (2 : ℚ) → (2 : ℚ) < 1 →
      (∀ i ∈ gridIndices 1, 0 < volumeScale 2 1 i ∧
        (pyCubeRootR (volumeScale 2 1 i)).isSome = true) ∧
      (calculateNew newStart 2 1 okZero).isSome = true) ∧
    (1 < (2 : ℚ) →
      volumeScale 2 1 (-((1 : ℕ) : ℤ)) = 1 - 2 ∧
      volumeScale 2 1 (-((1 : ℕ) : ℤ)) < 0 ∧
      pyCubeRootR (volumeScale 2 1 (-((1 : ℕ) : ℤ))) = none) :=
  C10_domain_safety newStart okZero 2 1 (le_refl 1)

/-! ### C4: cell restoration after the scan -/

/-- C4 (counterexample): the legacy scan (`test_driver.py`) mutates
`self.atoms` and never restores it: at `max_volume_scale = 1/10`,
`num_steps = 1` with an always-succeeding evaluator, the cell matrix after
the scan differs from the cell matrix before it. -/
theorem C4_counterexample :
    (calculateOld oldStart (1/10) 1 evalZero).map
        (fun s => CellRep.matrix s.atomsCell) ≠
      some (CellRep.matrix oldStart.atomsCell) := by
  have hvs : ∀ i ∈ gridIndices 1, 0 ≤ volumeScale (1/10) 1 i :=
    volumeScale_nonneg_grid (by norm_num) (by norm_num)
  rw [calculateOld_spec oldStart (1/10) 1 evalZero hvs, Option.map_some']
  intro hEq
  rw [Option.some.injEq] at hEq
  have hcell : (expectedStateOld oldStart (1/10) 1 evalZero).atomsCell =
      (⟨(1 : Matrix (Fin 3) (Fin 3) ℚ), 11/10⟩ : CellRep) := by
    show lastCellOld oldStart.atomsCell (1/10) 1 oldStart.atomsCell
      (gridIndices 1) = _
    rw [lastCellOld_grid _ _ _ (le_refl 1)]
    simp [scaleCell, oldStart, cellOne]
    norm_num
  rw [hcell] at hEq
  exact cellMatrix_entry_ne (by norm_num) hEq

/-- C4 (amended): the kim-tools scan confines the deformations to per-point
working copies and restores the nominal structure, so its cell after the scan
equals the cell before; the legacy scan instead leaves the cell of
`self.atoms` at the final deformation, `original_cell` scaled by volume
factor `1 + max_volume_scale`. -/
theorem C4_cell_restoration (st : DriverState) (ost : OldDriverState)
    (mvs : ℚ) (ns : ℕ) (outcome : ℤ → PointOutcome) (oEval : ℤ → Option ℚ)
    (h1 : 1 ≤ ns)
    (hvs : ∀ i ∈ gridIndices ns, 0 ≤ volumeScale mvs ns i) :
    (∃ st2, calculateNew st mvs ns outcome = some st2 ∧
      st2.nominalCell = st.nominalCell ∧
      st2.nominalCell.matrix = st.nominalCell.matrix) ∧
    (∃ ost2, calculateOld ost mvs ns oEval = some ost2 ∧
      ost2.atomsCell = scaleCell ost.atomsCell (1 + mvs)) := by
  constructor
  · exact ⟨expectedStateNew st mvs ns outcome,
      calculateNew_spec st mvs ns outcome hvs, rfl, rfl⟩
  · refine ⟨expectedStateOld ost mvs ns oEval,
      calculateOld_spec ost mvs ns oEval hvs, ?_⟩
    show lastCellOld ost.atomsCell mvs ns ost.atomsCell (gridIndices ns) = _
    exact lastCellOld_grid _ _ _ h1

/-- C4 (witness): the amended cell-restoration theorem at
`max_volume_scale = 1/10`, `num_steps = 1`, on the concrete structures. -/
theorem C4_cell_restoration_witness :
    (∃ st2, calculateNew newStart (1/10) 1 okZero = some st2 ∧
      st2.nominalCell = newStart.nominalCell ∧
      st2.nominalCell.matrix = newStart.nominalCell.matrix) ∧
    (∃ ost2, calculateOld oldStart (1/10) 1 evalZero = some ost2 ∧
      ost2.atomsCell = scaleCell oldStart.atomsCell (1 + 1/10)) :=
  C4_cell_restoration newStart oldStart (1/10) 1 okZero evalZero (le_refl 1)
    (volumeScale_nonneg_grid (by norm_num) (by norm_num))

/-! ### C7: repeating the scan -/

/-- C7 (counterexample): for the legacy variant, two successive scans with
identical inputs (`max_volume_scale = 7/10`, `num_steps = 1`, deterministic
always-zero evaluator) produce different `volume-per-atom` sequences, and the
first scan already changes the structure's cell matrix. -/
theorem C7_counterexample :
    ((calculateOld oldStart (7/10) 1 evalZero).bind
        (fun s1 => calculateOld s1 (7/10) 1 evalZero)).map
        (fun s => lastVpaValues s.propertyInstances) ≠
      (calculateOld oldStart (7/10) 1 evalZero).map
        (fun s => lastVpaValues s.propertyInstances) ∧
    (calculateOld oldStart (7/10) 1 evalZero).map
        (fun s => CellRep.matrix s.atomsCell) ≠
      some (CellRep.matrix oldStart.atomsCell) := by
  have hvs : ∀ i ∈ gridIndices 1, 0 ≤ volumeScale (7/10) 1 i :=
    volumeScale_nonneg_grid (by norm_num) (by norm_num)
  have hgrid : gridIndices 1 = [-1, 0, 1] := by decide
  have hok : okListOld evalZero 1 = [-1, 0, 1] := by
    rw [okListOld, hgrid]
    rfl
  have e1 : volumeScale (7/10) 1 (-1) = 3/10 := by norm_num [volumeScale, stepSize]
  have e2 : volumeScale (7/10) 1 0 = 1 := by norm_num [volumeScale, stepSize]
  have e3 : volumeScale (7/10) 1 1 = 17/10 := by norm_num [volumeScale, stepSize]
  have hV0 : getVolume cellOne = 1 := by
    simp [getVolume, cellOne, Matrix.det_one]
  have h1 := calculateOld_spec oldStart (7/10) 1 evalZero hvs
  have h2 := calculateOld_spec (expectedStateOld oldStart (7/10) 1 evalZero)
    (7/10) 1 evalZero hvs
  have hcell1 : (expectedStateOld oldStart (7/10) 1 evalZero).atomsCell =
      scaleCell cellOne (17/10) := by
    show lastCellOld oldStart.atomsCell (7/10) 1 oldStart.atomsCell
      (gridIndices 1) = _
    rw [lastCellOld_grid _ _ _ (le_refl 1)]
    show scaleCell cellOne (1 + 7/10) = _
    norm_num
  have hVc : getVolume (scaleCell cellOne (17/10)) = 17/10 := by
    rw [getVolume_scaleCell, hV0, mul_one]
  have hv1 : lastVpaValues
      (expectedStateOld oldStart (7/10) 1 evalZero).propertyInstances =
      [3/10, 1, 17/10] := by
    show lastVpaValues (oldStart.propertyInstances ++
      [expectedEvvOld oldStart (7/10) 1 evalZero]) = _
    rw [lastVpaValues, List.getLast?_concat]
    show expectedVpa oldStart.atomsCell oldStart.numAtoms (7/10) 1
      (okListOld evalZero 1) = _
    rw [hok]
    simp only [expectedVpa, List.map_cons, List.map_nil, getVolume_scaleCell,
      e1, e2, e3]
    show [3/10 * getVolume cellOne / 1, 1 * getVolume cellOne / 1,
      17/10 * getVolume cellOne / 1] = _
    rw [hV0]
    norm_num
  have hv2 : lastVpaValues
      (expectedStateOld (expectedStateOld oldStart (7/10) 1 evalZero)
        (7/10) 1 evalZero).propertyInstances = [51/100, 17/10, 289/100] := by
    show lastVpaValues
      ((expectedStateOld oldStart (7/10) 1 evalZero).propertyInstances ++
        [expectedEvvOld (expectedStateOld oldStart (7/10) 1 evalZero)
          (7/10) 1 evalZero]) = _
    rw [lastVpaValues, List.getLast?_concat]
    show expectedVpa (expectedStateOld oldStart (7/10) 1 evalZero).atomsCell
      (expectedStateOld oldStart (7/10) 1 evalZero).numAtoms (7/10) 1
      (okListOld evalZero 1) = _
    rw [hok, hcell1]
    simp only [expectedVpa, List.map_cons, List.map_nil, getVolume_scaleCell,
      e1, e2, e3]
    norm_num [hV0, oldStart, expectedStateOld]
  constructor
  · rw [h1]
    show (calculateOld (expectedStateOld oldStart (7/10) 1 evalZero)
      (7/10) 1 evalZero).map (fun s => lastVpaValues s.propertyInstances) ≠ _
    rw [h2, Option.map_some', Option.map_some']
    intro hEq
    rw [Option.some.injEq] at hEq
    rw [hv1, hv2] at hEq
    norm_num at hEq
  · rw [h1, Option.map_some']
    intro hEq
    rw [Option.some.injEq, hcell1] at hEq
    have : scaleCell cellOne (17/10) =
        (⟨(1 : Matrix (Fin 3) (Fin 3) ℚ), 17/10⟩ : CellRep) := by
      show scaleCell cellOne (17/10) = _
      norm_num [scaleCell, cellOne]
    rw [this] at hEq
    exact cellMatrix_entry_ne (by norm_num) hEq

/-- C7 (amended): for the kim-tools variant, two successive scans with
identical inputs and a deterministic outcome function both succeed, both
leave the nominal cell exactly as before, and produce the same final
`energy-vs-volume-isotropic-crystal` record (the legacy variant violates
this, see the counterexample). -/
theorem C7_repeat_scan (st : DriverState) (mvs : ℚ) (ns : ℕ)
    (outcome : ℤ → PointOutcome)
    (hvs : ∀ i ∈ gridIndices ns, 0 ≤ volumeScale mvs ns i) :
    ∃ st1 st2, calculateNew st mvs ns outcome = some st1 ∧
      calculateNew st1 mvs ns outcome = some st2 ∧
      st1.nominalCell = st.nominalCell ∧
      st2.nominalCell = st.nominalCell ∧
      ∃ pi, st1.propertyInstances.getLast? = some pi ∧
        st2.propertyInstances.getLast? = some pi := by
  refine ⟨expectedStateNew st mvs ns outcome,
    expectedStateNew (expectedStateNew st mvs ns outcome) mvs ns outcome,
    calculateNew_spec st mvs ns outcome hvs,
    calculateNew_spec _ mvs ns outcome hvs, rfl, rfl,
    expectedEvvNew st mvs ns outcome, lastInstance_new st mvs ns outcome, ?_⟩
  rw [lastInstance_new]
  rfl

/-- C7 (witness): the repeat-scan theorem at `max_volume_scale = 1/10`,
`num_steps = 1`, with the always-succeeding zero-energy outcome. -/
theorem C7_repeat_scan_witness :
    ∃ st1 st2, calculateNew newStart (1/10) 1 okZero = some st1 ∧
      calculateNew st1 (1/10) 1 okZero = some st2 ∧
      st1.nominalCell = newStart.nominalCell ∧
      st2.nominalCell = newStart.nominalCell ∧
      ∃ pi, st1.propertyInstances.getLast? = some pi ∧
        st2.propertyInstances.getLast? = some pi :=
  C7_repeat_scan newStart (1/10) 1 okZero
    (volumeScale_nonneg_grid (by norm_num) (by norm_num))

/-! ### C9: property-record accumulation -/

/-- C9 (counterexample): the kim-tools scan does not create exactly one
property record: at `num_steps = 1` with all three points succeeding it
appends 4 property instances (three `crystal-structure-npt` plus one
`energy-vs-volume-isotropic-crystal`) to an initially empty list. -/
theorem C9_counterexample :
    (calculateNew newStart (1/10) 1 okZero).map
        (fun s => s.propertyInstances.length) = some 4 ∧
    newStart.propertyInstances.length = 0 ∧ (4 : ℕ) ≠ 1 := by
  refine ⟨?_, rfl, by decide⟩
  rw [calculateNew_spec newStart (1/10) 1 okZero
    (volumeScale_nonneg_grid (by norm_num) (by norm_num)), Option.map_some']
  have hok : okList okZero 1 = gridIndices 1 :=
    List.filter_eq_self.mpr (fun _ _ => rfl)
  simp [expectedStateNew, hok, length_gridIndices, newStart]

/-- C9 (amended): each scan appends its new records at the end of the
driver's accumulating property-instance list (so earlier records are
untouched and the list only grows): the legacy scan appends exactly one
record, while the kim-tools scan appends one `crystal-structure-npt` record
per successful grid point plus one `energy-vs-volume-isotropic-crystal`
record. -/
theorem C9_record_accumulation (st : DriverState) (ost : OldDriverState)
    (mvs : ℚ) (ns : ℕ) (outcome : ℤ → PointOutcome) (oEval : ℤ → Option ℚ)
    (hvs : ∀ i ∈ gridIndices ns, 0 ≤ volumeScale mvs ns i) :
    (∃ st2, calculateNew st mvs ns outcome = some st2 ∧
      ∃ l, st2.propertyInstances = st.propertyInstances ++ l ∧
        l.length = (okList outcome ns).length + 1) ∧
    (∃ ost2, calculateOld ost mvs ns oEval = some ost2 ∧
      ∃ l, ost2.propertyInstances = ost.propertyInstances ++ l ∧
        l.length = 1) := by
  constructor
  · refine ⟨expectedStateNew st mvs ns outcome,
      calculateNew_spec st mvs ns outcome hvs,
      (okList outcome ns).map (fun _ => nptInst) ++
        [expectedEvvNew st mvs ns outcome], ?_, by simp⟩
    show st.propertyInstances ++ (okList outcome ns).map (fun _ => nptInst) ++
      [expectedEvvNew st mvs ns outcome] = _
    rw [List.append_assoc]
  · exact ⟨expectedStateOld ost mvs ns oEval,
      calculateOld_spec ost mvs ns oEval hvs,
      [expectedEvvOld ost mvs ns oEval], rfl, rfl⟩

/-- C9 (witness): the record-accumulation theorem at `max_volume_scale =
1/10`, `num_steps = 1`, on the concrete structures. -/
theorem C9_record_accumulation_witness :
    (∃ st2, calculateNew newStart (1/10) 1 okZero = some st2 ∧
      ∃ l, st2.propertyInstances = newStart.propertyInstances ++ l ∧
        l.length = (okList okZero 1).length + 1) ∧
    (∃ ost2, calculateOld oldStart (1/10) 1 evalZero = some ost2 ∧
      ∃ l, ost2.propertyInstances = oldStart.propertyInstances ++ l ∧
        l.length = 1) :=
  C9_record_accumulation newStart oldStart (1/10) 1 okZero evalZero
    (volumeScale_nonneg_grid (by norm_num) (by norm_num))

/-! ### C8: LAMMPS atom-style fallback (modelled from the spec) -/

/-- C8: the LAMMPS-backed evaluator tries the two styles in order — atomic
then charge — accepts the first that succeeds (in particular, for a model
that only accepts the charge style it returns that style's energy with no
error), and fails only when every style fails. -/
theorem C8_style_fallback :
    lammpsStyles.length = 2 ∧
    lammpsStyles = [AtomStyle.atomic, AtomStyle.charge] ∧
    (∀ ev e, ev AtomStyle.atomic = some e → lammpsEvaluate ev = some e) ∧
    (∀ ev e, ev AtomStyle.atomic = none → ev AtomStyle.charge = some e →
      lammpsEvaluate ev = some e) ∧
    (∀ ev, lammpsEvaluate ev = none ↔ ∀ s ∈ lammpsStyles, ev s = none) := by
  refine ⟨rfl, rfl, ?_, ?_, ?_⟩
  · intro ev e h
    simp [lammpsEvaluate, lammpsStyles, tryStyles, h]
  · intro ev e h1 h2
    simp [lammpsEvaluate, lammpsStyles, tryStyles, h1, h2]
  · intro ev
    constructor
    · intro h s hs
      cases ha : ev AtomStyle.atomic with
      | some e =>
        rw [lammpsEvaluate, lammpsStyles] at h
        simp [tryStyles, ha] at h
      | none =>
        cases hc : ev AtomStyle.charge with
        | some e =>
          rw [lammpsEvaluate, lammpsStyles] at h
          simp [tryStyles, ha, hc] at h
        | none =>
          simp only [lammpsStyles, List.mem_cons, List.not_mem_nil,
            or_false] at hs
          rcases hs with rfl | rfl
          · exact ha
          · exact hc
    · intro h
      have ha := h AtomStyle.atomic (by simp [lammpsStyles])
      have hc := h AtomStyle.charge (by simp [lammpsStyles])
      simp [lammpsEvaluate, lammpsStyles, tryStyles, ha, hc]

/-- C8 (witness): the fallback theorem applied to a model accepting only the
charge style: the evaluation succeeds with that style's energy. -/
theorem C8_style_fallback_witness :
    chargeOnlyEv AtomStyle.atomic = none ∧
    chargeOnlyEv AtomStyle.charge = some 5 ∧
    lammpsEvaluate chargeOnlyEv = some 5 :=
  ⟨rfl, rfl, C8_style_fallback.2.2.2.1 chargeOnlyEv 5 rfl rfl⟩

end VolumeScan
